import Mathlib

/-!
Verification of the real-time chat relay.

The repository contains several parallel relay implementations.  The one the
specification follows (wire frames `new_message`, `read_receipt`, `connected`,
mongoose-backed stores with `readBy` and `unreadCount`) is the WebSocket relay
in `src/unnamed/part_010`; it is embedded below in namespace `Relay`.  The
second `ws` relay in `src/server/socket.ts` (backed by the in-memory
`MemStorage` of `src/server/storage.ts`) is embedded in namespace `WsRelay`.

Ids (mongo object ids / numeric ids) are modelled as `Nat`.  A JSON field that
may be absent is an `Option`; the JS truthiness test `if (data.chatId)` on an
id is modelled as presence of the `Option` (object ids are never the empty
string), and truthiness of `data.content` additionally excludes `""`.
Database calls are synchronous state transformations; `Message.create`, which
can reject, takes an explicit success flag.  Wall-clock values (`new Date()`)
are threaded as a `now : Nat` parameter.
-/

namespace Relay

abbrev UserId := Nat
abbrev ChatId := Nat
abbrev ConnId := Nat

/-- A `Message` document (src/unnamed/part_010 lines 99-106, models.ts). -/
structure Msg where
  id : Nat
  chatId : ChatId
  senderId : UserId
  content : String
  readBy : List UserId
  deriving Repr, DecidableEq

/-- A `ChatMember` document: membership row with per-member unread counter. -/
structure ChatMemberDoc where
  id : Nat
  chatId : ChatId
  userId : UserId
  unreadCount : Nat
  lastReadAt : Option Nat
  deriving Repr, DecidableEq

/-- A `Chat` document (only the fields the relay touches). -/
structure ChatDoc where
  id : ChatId
  lastMessage : Option String
  lastMessageTime : Option Nat
  deriving Repr, DecidableEq

/-- A `User` document (only the fields the relay touches). -/
structure UserDoc where
  id : UserId
  username : String
  status : String
  deriving Repr, DecidableEq

/-- The mongoose-backed store as seen through the calls the relay makes. -/
structure DB where
  users : List UserDoc
  chats : List ChatDoc
  members : List ChatMemberDoc
  messages : List Msg
  nextMsgId : Nat
  deriving Repr, DecidableEq

/-- One WebSocket connection (`UserWebSocket`): `ws.userId` / `ws.username`
are set by the auth frame; `isOpen` is `readyState === WebSocket.OPEN`. -/
structure Conn where
  connId : ConnId
  userId : Option UserId
  username : Option String
  isOpen : Bool
  deriving Repr, DecidableEq

/-- `User.findById`. -/
def findUser (db : DB) (u : UserId) : Option UserDoc :=
  db.users.find? (fun d => d.id == u)

/-- `ChatMember.findOne({ chatId, userId })`. -/
def findMember (db : DB) (c : ChatId) (u : UserId) : Option ChatMemberDoc :=
  db.members.find? (fun m => m.chatId == c && m.userId == u)

/-- `ChatMember.find({ chatId })`. -/
def chatMembersOf (db : DB) (c : ChatId) : List ChatMemberDoc :=
  db.members.filter (fun m => m.chatId == c)

/-- Outbound wire frames of the part_010 relay. -/
inductive Frame
  | connected
  | ping
  | errorF (msg : String)
  | newMessage (m : Msg)
  | typing (chatId : ChatId) (userId : UserId) (username : Option String) (isTyping : Bool)
  | readReceipt (chatId : ChatId) (userId : UserId)
  | userStatus (userId : UserId) (username : String) (status : String)
  | chatsList
  deriving Repr, DecidableEq

/-- Observable events of a handler run: a successful `Message.create`
(durable append) or a `client.send` of a frame to a connection. -/
inductive Ev
  | append (m : Msg)
  | send (dst : ConnId) (f : Frame)
  deriving Repr, DecidableEq

/-- The `case 'message'` handler (src/unnamed/part_010 lines 65-143).
`createOk` tells whether `Message.create` succeeds; when it rejects, the
outer catch sends the generic error frame (lines 207-213). -/
def handleMessage (db : DB) (conns : List Conn) (ws : Conn)
    (chatId : Option ChatId) (content : Option String)
    (createOk : Bool) (now : Nat) : DB × List Ev :=
  match ws.userId with
  | none => (db, [Ev.send ws.connId (Frame.errorF "Not authenticated")])
  | some uid =>
    match chatId, content with
    | some c, some body =>
      if body = "" then (db, [])
      else
        match findMember db c uid with
        | none => (db, [Ev.send ws.connId (Frame.errorF "You are not a member of this chat")])
        | some _ =>
          match findUser db uid with
          | none => (db, [Ev.send ws.connId (Frame.errorF "User not found")])
          | some _ =>
            match createOk with
            | true =>
              let m : Msg :=
                { id := db.nextMsgId, chatId := c, senderId := uid,
                  content := body, readBy := [uid] }
              let db1 := { db with messages := db.messages ++ [m],
                                   nextMsgId := db.nextMsgId + 1 }
              let db2 := { db1 with chats := db1.chats.map (fun ch =>
                    if ch.id == c then
                      { ch with lastMessage := some body, lastMessageTime := some now }
                    else ch) }
              let cms := chatMembersOf db2 c
              let db3 := { db2 with members := db2.members.map (fun cm =>
                    if cm.chatId == c && cm.userId != uid then
                      { cm with unreadCount := cm.unreadCount + 1 }
                    else cm) }
              let sends := (conns.filter (fun cl =>
                    cl.isOpen && cl.userId.isSome &&
                    cms.any (fun mem => some mem.userId == cl.userId))).map
                  (fun cl => Ev.send cl.connId (Frame.newMessage m))
              (db3, Ev.append m :: sends)
            | false =>
              (db, [Ev.send ws.connId (Frame.errorF "Failed to process message")])
    | _, _ => (db, [])

/-- The `case 'typing'` handler (src/unnamed/part_010 lines 145-162): the
frame is re-broadcast to every other open authenticated connection; there is
no typing state, no timer, and no chat-membership filter. -/
def handleTyping (db : DB) (conns : List Conn) (ws : Conn)
    (chatId : Option ChatId) (isTyping : Bool) : DB × List Ev :=
  match ws.userId, chatId with
  | some uid, some c =>
      (db, (conns.filter (fun cl =>
              cl.isOpen && cl.userId.isSome && cl.userId != some uid)).map
        (fun cl => Ev.send cl.connId (Frame.typing c uid ws.username isTyping)))
  | _, _ => (db, [])

/-- `Message.updateMany({ chatId, readBy: { $ne: userId } }, { $addToSet:
{ readBy: userId } })`: add the reader to `readBy` of every message of the
chat not already containing them. -/
def addToSetReadBy (u : UserId) (c : ChatId) (msgs : List Msg) : List Msg :=
  msgs.map (fun m =>
    if m.chatId == c && !(m.readBy.contains u) then
      { m with readBy := m.readBy ++ [u] }
    else m)

/-- The messages of chat `c` not yet read by `u`: the delta a mark-read
request newly applies. -/
def readDelta (db : DB) (c : ChatId) (u : UserId) : List Msg :=
  db.messages.filter (fun m => m.chatId == c && !(m.readBy.contains u))

/-- The `case 'read'` handler (src/unnamed/part_010 lines 164-205). -/
def handleRead (db : DB) (conns : List Conn) (ws : Conn)
    (chatId : Option ChatId) (now : Nat) : DB × List Ev :=
  match ws.userId, chatId with
  | some uid, some c =>
    match findMember db c uid with
    | none => (db, [])
    | some cm =>
      let db1 := { db with messages := addToSetReadBy uid c db.messages }
      let db2 := { db1 with members := db1.members.map (fun mem =>
            if mem.id == cm.id then
              { mem with unreadCount := 0, lastReadAt := some now }
            else mem) }
      let sends := (conns.filter (fun cl =>
              cl.isOpen && cl.userId.isSome && cl.userId != some uid)).map
        (fun cl => Ev.send cl.connId (Frame.readReceipt c uid))
      (db2, sends)
  | _, _ => (db, [])

/-- `Array.from(new Set(xs))`: deduplicate keeping first occurrences. -/
def jsSetList (xs : List UserId) : List UserId :=
  xs.foldl (fun acc x => if acc.contains x then acc else acc ++ [x]) []

/-- The users sharing a chat with `u` (src/unnamed/part_010 lines 236-247):
chat ids of `u`'s memberships, then the other members of those chats,
deduplicated. -/
def interestedSet (db : DB) (u : UserId) : List UserId :=
  let chatIds := (db.members.filter (fun cm => cm.userId == u)).map (·.chatId)
  jsSetList ((db.members.filter (fun cm =>
    chatIds.contains cm.chatId && cm.userId != u)).map (·.userId))

/-- The `broadcastUserStatus` helper (src/unnamed/part_010 lines 230-266). -/
def broadcastUserStatus (db : DB) (conns : List Conn) (u : UserId)
    (status : String) : List Ev :=
  match findUser db u with
  | none => []
  | some user =>
    (conns.filter (fun cl =>
        cl.isOpen &&
        (match cl.userId with
         | some v => (interestedSet db u).contains v
         | none => false))).map
      (fun cl => Ev.send cl.connId (Frame.userStatus u user.username status))

/-- The `case 'auth'` handler (src/unnamed/part_010 lines 46-59): `ws.userId`
is set before the user lookup; only when the user exists is the username set,
the status flipped to online and presence broadcast.  An unknown user id
produces no error and no close. -/
def handleAuth (db : DB) (conns : List Conn) (ws : Conn)
    (userId : Option UserId) : DB × List Conn × List Ev :=
  match userId with
  | none => (db, conns, [])
  | some uid =>
    let conns1 := conns.map (fun cl =>
      if cl.connId == ws.connId then { cl with userId := some uid } else cl)
    match findUser db uid with
    | none => (db, conns1, [])
    | some user =>
      let conns2 := conns1.map (fun cl =>
        if cl.connId == ws.connId then { cl with username := some user.username } else cl)
      let db1 := { db with users := db.users.map (fun u =>
        if u.id == uid then { u with status := "online" } else u) }
      (db1, conns2, broadcastUserStatus db1 conns2 uid "online")

/-- The `close` handler (src/unnamed/part_010 lines 217-224): runs once per
closing socket; if the socket carried a user id, the user's status is set
offline and one offline broadcast is emitted — no connection counting. -/
def handleClose (db : DB) (conns : List Conn) (ws : Conn) : DB × List Conn × List Ev :=
  let conns1 := conns.map (fun cl =>
    if cl.connId == ws.connId then { cl with isOpen := false } else cl)
  match ws.userId with
  | none => (db, conns1, [])
  | some uid =>
    let db1 := { db with users := db.users.map (fun u =>
      if u.id == uid then { u with status := "offline" } else u) }
    (db1, conns1, broadcastUserStatus db1 conns1 uid "offline")

/-- The HTTP mark-read endpoint (src/server/routes.ts lines 291-321):
membership-gated `$addToSet` of the reader plus unread-counter reset;
returns the HTTP status code. -/
def routeMarkRead (db : DB) (u : UserId) (c : ChatId) (now : Nat) : DB × Nat :=
  match findMember db c u with
  | none => (db, 403)
  | some cm =>
    let db1 := { db with messages := addToSetReadBy u c db.messages }
    let db2 := { db1 with members := db1.members.map (fun mem =>
          if mem.id == cm.id then
            { mem with unreadCount := 0, lastReadAt := some now }
          else mem) }
    (db2, 200)

/-- The inbound operations of the part_010 relay. -/
inductive Op
  | connect (cid : ConnId)
  | auth (cid : ConnId) (userId : Option UserId)
  | message (cid : ConnId) (chatId : Option ChatId) (content : Option String)
      (createOk : Bool) (now : Nat)
  | typing (cid : ConnId) (chatId : Option ChatId) (isTyping : Bool)
  | read (cid : ConnId) (chatId : Option ChatId) (now : Nat)
  | close (cid : ConnId)
  | routeRead (userId : UserId) (chatId : ChatId) (now : Nat)
  deriving Repr, DecidableEq

/-- Server state: the store plus the live sockets (`wss.clients`). -/
structure RState where
  db : DB
  conns : List Conn
  deriving Repr, DecidableEq

def findConn (s : RState) (cid : ConnId) : Option Conn :=
  s.conns.find? (fun cl => cl.connId == cid)

/-- One inbound operation processed by the relay. -/
def stepRelay (s : RState) : Op → RState × List Ev
  | Op.connect cid =>
      ({ s with conns := s.conns ++ [⟨cid, none, none, true⟩] },
       [Ev.send cid Frame.connected])
  | Op.auth cid u =>
      match findConn s cid with
      | none => (s, [])
      | some ws =>
        let r := handleAuth s.db s.conns ws u
        ({ db := r.1, conns := r.2.1 }, r.2.2)
  | Op.message cid c body ok now =>
      match findConn s cid with
      | none => (s, [])
      | some ws =>
        let r := handleMessage s.db s.conns ws c body ok now
        ({ s with db := r.1 }, r.2)
  | Op.typing cid c t =>
      match findConn s cid with
      | none => (s, [])
      | some ws =>
        let r := handleTyping s.db s.conns ws c t
        ({ s with db := r.1 }, r.2)
  | Op.read cid c now =>
      match findConn s cid with
      | none => (s, [])
      | some ws =>
        let r := handleRead s.db s.conns ws c now
        ({ s with db := r.1 }, r.2)
  | Op.close cid =>
      match findConn s cid with
      | none => (s, [])
      | some ws =>
        let r := handleClose s.db s.conns ws
        ({ db := r.1, conns := r.2.1 }, r.2.2)
  | Op.routeRead u c now =>
      ({ s with db := (routeMarkRead s.db u c now).1 }, [])

/-- A sequence of operations, with the concatenated event trace. -/
def runRelay : RState → List Op → RState × List Ev
  | s, [] => (s, [])
  | s, op :: ops =>
    let r1 := stepRelay s op
    let r2 := runRelay r1.1 ops
    (r2.1, r1.2 ++ r2.2)

end Relay

namespace Relay

/-- Helper: `get?` on the empty list yields nothing. -/
theorem get?_nil {α : Type} (i : Nat) : ([] : List α).get? i = none := by
  cases i <;> rfl

/-- Helper: `get?` on a singleton yields the element when it yields anything. -/
theorem get?_singleton {α : Type} {x y : α} {i : Nat}
    (h : [x].get? i = some y) : y = x := by
  cases i with
  | zero => simpa [List.get?] using h.symm
  | succ n => rw [List.get?, get?_nil] at h; cases h

/-- C1 helper: every element of the fanout list is a `newMessage` send of the
appended message. -/
theorem mem_fanout_sends (conns : List Conn) (m : Msg)
    (p : Conn → Bool) (e : Ev)
    (he : e ∈ (conns.filter p).map (fun cl => Ev.send cl.connId (Frame.newMessage m))) :
    ∃ c, e = Ev.send c (Frame.newMessage m) := by
  rcases List.mem_map.mp he with ⟨cl, _, rfl⟩
  exact ⟨cl.connId, rfl⟩

/-- C1: if a `new_message` frame for message `m` appears at position `i` of
the event trace of the message handler, then the durable append of `m`
appears at an earlier position: persist-before-broadcast. -/
theorem relay_persist_before_broadcast
    (db : DB) (conns : List Conn) (ws : Conn)
    (chatId : Option ChatId) (content : Option String)
    (createOk : Bool) (now : Nat) (i : Nat) (c : ConnId) (m : Msg)
    (h : (handleMessage db conns ws chatId content createOk now).2.get? i =
         some (Ev.send c (Frame.newMessage m))) :
    ∃ j, j < i ∧
      (handleMessage db conns ws chatId content createOk now).2.get? j =
        some (Ev.append m) := by
  unfold handleMessage at h ⊢
  cases hu : ws.userId with
  | none =>
    simp only [hu] at h
    exact absurd (get?_singleton h) (by simp)
  | some uid =>
    cases hc : chatId with
    | none =>
      simp only [hu, hc] at h
      cases content <;> rw [get?_nil] at h <;> cases h
    | some cid =>
      cases hb : content with
      | none =>
        simp only [hu, hc, hb] at h
        rw [get?_nil] at h; cases h
      | some body =>
        simp only [hu, hc, hb] at h ⊢
        by_cases hbe : body = ""
        · simp only [if_pos hbe] at h
          rw [get?_nil] at h; cases h
        · simp only [if_neg hbe] at h ⊢
          cases hm : findMember db cid uid with
          | none =>
            simp only [hm] at h
            exact absurd (get?_singleton h) (by simp)
          | some cm =>
            simp only [hm] at h ⊢
            cases hs : findUser db uid with
            | none =>
              simp only [hs] at h
              exact absurd (get?_singleton h) (by simp)
            | some sender =>
              simp only [hs] at h ⊢
              cases hok : createOk with
              | false =>
                simp only [hok] at h
                exact absurd (get?_singleton h) (by simp)
              | true =>
                simp only [hok] at h ⊢
                cases i with
                | zero => simp only [List.get?_cons_zero] at h; cases h
                | succ i' =>
                  refine ⟨0, Nat.succ_pos i', ?_⟩
                  simp only [List.get?_cons_succ] at h
                  have hmem : Ev.send c (Frame.newMessage m) ∈
                      ((conns.filter _).map
                        (fun cl => Ev.send cl.connId (Frame.newMessage _))) :=
                    List.get?_mem h
                  rcases mem_fanout_sends _ _ _ _ hmem with ⟨c', he⟩
                  have hm2 : m = { id := db.nextMsgId, chatId := cid, senderId := uid, content := body, readBy := [uid] } := by
                    injection he with _ hf
                    injection hf.symm with hm'
                    exact hm'.symm
                  simp only [List.get?_cons_zero, hm2]

/-- C1 witness input: a two-member chat with both members online. -/
def db₀ : DB :=
  { users := [⟨1, "alice", "online"⟩, ⟨2, "bob", "online"⟩],
    chats := [⟨1, none, none⟩],
    members := [⟨1, 1, 1, 0, none⟩, ⟨2, 1, 2, 0, none⟩],
    messages := [],
    nextMsgId := 5 }

def conns₀ : List Conn :=
  [⟨1, some 1, some "alice", true⟩, ⟨2, some 2, some "bob", true⟩]

def msg₀ : Msg := { id := 5, chatId := 1, senderId := 1, content := "hi", readBy := [1] }

/-- C1 witness: in the concrete two-member chat, the `new_message` send to
connection 2 at trace position 2 is preceded by the append at position 0. -/
theorem relay_persist_before_broadcast_witness :
    ∃ j, j < 2 ∧
      (handleMessage db₀ conns₀ ⟨1, some 1, some "alice", true⟩
        (some 1) (some "hi") true 7).2.get? j = some (Ev.append msg₀) :=
  relay_persist_before_broadcast db₀ conns₀ ⟨1, some 1, some "alice", true⟩
    (some 1) (some "hi") true 7 2 2 msg₀ (by decide)

/-- C2: a message frame from an authenticated sender who is not a member of
the target chat produces exactly one error frame back to the sender; the
database (messages, chats, membership rows) is unchanged and no other
connection receives anything. -/
theorem relay_non_member_rejected
    (db : DB) (conns : List Conn) (ws : Conn) (c : ChatId) (body : String)
    (uid : UserId) (createOk : Bool) (now : Nat)
    (hu : ws.userId = some uid) (hb : body ≠ "")
    (hm : findMember db c uid = none) :
    handleMessage db conns ws (some c) (some body) createOk now =
      (db, [Ev.send ws.connId (Frame.errorF "You are not a member of this chat")]) := by
  unfold handleMessage
  simp [hu, hm, hb]

/-- C2 witness: user 3 is not a member of chat 1; the send is rejected with
only an error frame to the sender and the store is untouched. -/
theorem relay_non_member_rejected_witness :
    handleMessage db₀ conns₀ ⟨3, some 3, some "carol", true⟩
        (some 1) (some "yo") true 7 =
      (db₀, [Ev.send 3 (Frame.errorF "You are not a member of this chat")]) :=
  relay_non_member_rejected db₀ conns₀ ⟨3, some 3, some "carol", true⟩ 1 "yo" 3
    true 7 rfl (by decide) (by decide)

end Relay

namespace Relay

/-- Helper: `$addToSet` preserves every message's id and only grows `readBy`. -/
theorem addToSetReadBy_mono (u : UserId) (c : ChatId) (msgs : List Msg) (m : Msg)
    (hm : m ∈ msgs) :
    ∃ m', m' ∈ addToSetReadBy u c msgs ∧ m'.id = m.id ∧ m.readBy ⊆ m'.readBy := by
  refine ⟨if m.chatId == c && !(m.readBy.contains u) then
      { m with readBy := m.readBy ++ [u] } else m,
    List.mem_map_of_mem _ hm, ?_, ?_⟩
  · split <;> rfl
  · split
    · exact List.subset_append_left _ _
    · exact List.Subset.refl _

/-- Helper: the message handler never rewrites an existing message. -/
theorem handleMessage_keeps_messages (db : DB) (conns : List Conn) (ws : Conn)
    (c : Option ChatId) (b : Option String) (ok : Bool) (now : Nat) (m : Msg)
    (hm : m ∈ db.messages) :
    m ∈ (handleMessage db conns ws c b ok now).1.messages := by
  unfold handleMessage
  cases hu : ws.userId with
  | none => simpa using hm
  | some uid =>
    cases c with
    | none => cases b <;> simpa using hm
    | some cid =>
      cases b with
      | none => simpa using hm
      | some body =>
        by_cases hbe : body = ""
        · simpa [hbe] using hm
        · simp only [if_neg hbe]
          cases hfm : findMember db cid uid with
          | none => simpa using hm
          | some cm =>
            cases hfu : findUser db uid with
            | none => simpa using hm
            | some sender =>
              cases ok with
              | false => simpa using hm
              | true =>
                simp
                exact Or.inl hm

/-- Helper: the auth handler does not touch the message collection. -/
theorem handleAuth_messages (db : DB) (conns : List Conn) (ws : Conn)
    (u : Option UserId) : (handleAuth db conns ws u).1.messages = db.messages := by
  unfold handleAuth
  cases u with
  | none => rfl
  | some uid => cases hfu : findUser db uid <;> simp [hfu]

/-- Helper: the close handler does not touch the message collection. -/
theorem handleClose_messages (db : DB) (conns : List Conn) (ws : Conn) :
    (handleClose db conns ws).1.messages = db.messages := by
  unfold handleClose
  cases hu : ws.userId <;> simp [hu]

/-- Helper: the typing handler does not touch the store at all. -/
theorem handleTyping_db (db : DB) (conns : List Conn) (ws : Conn)
    (c : Option ChatId) (t : Bool) : (handleTyping db conns ws c t).1 = db := by
  unfold handleTyping
  cases hu : ws.userId <;> cases hc : c <;> simp [hu, hc]

/-- Helper: the read handler only `$addToSet`s into `readBy`. -/
theorem handleRead_readBy_mono (db : DB) (conns : List Conn) (ws : Conn)
    (c : Option ChatId) (now : Nat) (m : Msg) (hm : m ∈ db.messages) :
    ∃ m', m' ∈ (handleRead db conns ws c now).1.messages ∧
      m'.id = m.id ∧ m.readBy ⊆ m'.readBy := by
  unfold handleRead
  cases hu : ws.userId with
  | none =>
    cases c <;> exact ⟨m, by simpa using hm, rfl, List.Subset.refl _⟩
  | some uid =>
    cases c with
    | none => exact ⟨m, by simpa using hm, rfl, List.Subset.refl _⟩
    | some cid =>
      cases hfm : findMember db cid uid with
      | none => exact ⟨m, by simpa [hfm] using hm, rfl, List.Subset.refl _⟩
      | some cm =>
        rcases addToSetReadBy_mono uid cid db.messages m hm with ⟨m', hmem, hid, hsub⟩
        exact ⟨m', by simpa [hfm] using hmem, hid, hsub⟩

/-- Helper: the HTTP mark-read endpoint only `$addToSet`s into `readBy`. -/
theorem routeMarkRead_readBy_mono (db : DB) (u : UserId) (c : ChatId) (now : Nat)
    (m : Msg) (hm : m ∈ db.messages) :
    ∃ m', m' ∈ (routeMarkRead db u c now).1.messages ∧
      m'.id = m.id ∧ m.readBy ⊆ m'.readBy := by
  unfold routeMarkRead
  cases hfm : findMember db c u with
  | none => exact ⟨m, by simpa [hfm] using hm, rfl, List.Subset.refl _⟩
  | some cm =>
    rcases addToSetReadBy_mono u c db.messages m hm with ⟨m', hmem, hid, hsub⟩
    exact ⟨m', by simpa [hfm] using hmem, hid, hsub⟩

/-- Helper: one relay operation never shrinks any message's `readBy`. -/
theorem stepRelay_readBy_mono (s : RState) (op : Op) (m : Msg)
    (hm : m ∈ s.db.messages) :
    ∃ m', m' ∈ (stepRelay s op).1.db.messages ∧
      m'.id = m.id ∧ m.readBy ⊆ m'.readBy := by
  cases op with
  | connect cid =>
    exact ⟨m, by simpa [stepRelay] using hm, rfl, List.Subset.refl _⟩
  | auth cid u =>
    cases hfc : findConn s cid with
    | none => exact ⟨m, by simpa [stepRelay, hfc] using hm, rfl, List.Subset.refl _⟩
    | some ws =>
      refine ⟨m, ?_, rfl, List.Subset.refl _⟩
      simpa [stepRelay, hfc, handleAuth_messages] using hm
  | message cid c b ok now =>
    cases hfc : findConn s cid with
    | none => exact ⟨m, by simpa [stepRelay, hfc] using hm, rfl, List.Subset.refl _⟩
    | some ws =>
      refine ⟨m, ?_, rfl, List.Subset.refl _⟩
      simpa [stepRelay, hfc] using handleMessage_keeps_messages s.db s.conns ws c b ok now m hm
  | typing cid c t =>
    cases hfc : findConn s cid with
    | none => exact ⟨m, by simpa [stepRelay, hfc] using hm, rfl, List.Subset.refl _⟩
    | some ws =>
      refine ⟨m, ?_, rfl, List.Subset.refl _⟩
      simpa [stepRelay, hfc, handleTyping_db] using hm
  | read cid c now =>
    cases hfc : findConn s cid with
    | none => exact ⟨m, by simpa [stepRelay, hfc] using hm, rfl, List.Subset.refl _⟩
    | some ws =>
      rcases handleRead_readBy_mono s.db s.conns ws c now m hm with ⟨m', hmem, hid, hsub⟩
      exact ⟨m', by simpa [stepRelay, hfc] using hmem, hid, hsub⟩
  | close cid =>
    cases hfc : findConn s cid with
    | none => exact ⟨m, by simpa [stepRelay, hfc] using hm, rfl, List.Subset.refl _⟩
    | some ws =>
      refine ⟨m, ?_, rfl, List.Subset.refl _⟩
      simpa [stepRelay, hfc, handleClose_messages] using hm
  | routeRead u c now =>
    rcases routeMarkRead_readBy_mono s.db u c now m hm with ⟨m', hmem, hid, hsub⟩
    exact ⟨m', by simpa [stepRelay] using hmem, hid, hsub⟩

/-- C4: over any sequence of relay operations (connect, auth, message send,
typing, socket mark-read, close, HTTP mark-read), every message's `readBy`
set only grows: the message survives with the same id and a superset of its
former `readBy`. -/
theorem relay_readBy_monotone (ops : List Op) (s : RState) (m : Msg)
    (hm : m ∈ s.db.messages) :
    ∃ m', m' ∈ (runRelay s ops).1.db.messages ∧
      m'.id = m.id ∧ m.readBy ⊆ m'.readBy := by
  induction ops generalizing s m with
  | nil => exact ⟨m, hm, rfl, List.Subset.refl _⟩
  | cons op ops ih =>
    rcases stepRelay_readBy_mono s op m hm with ⟨m1, h1, hid1, hsub1⟩
    rcases ih (stepRelay s op).1 m1 h1 with ⟨m2, h2, hid2, hsub2⟩
    refine ⟨m2, ?_, hid2.trans hid1, hsub1.trans hsub2⟩
    simpa [runRelay] using h2

/-- C4 witness input: one already-persisted message. -/
def db₁ : DB :=
  { db₀ with messages := [⟨7, 1, 1, "hi", [1]⟩], nextMsgId := 8 }

/-- C4 witness: after user 2's socket mark-read and a fresh send, message 7
is still present with `readBy ⊇ [1]`. -/
theorem relay_readBy_monotone_witness :
    ∃ m', m' ∈ (runRelay ⟨db₁, conns₀⟩
        [Op.read 2 (some 1) 9, Op.message 1 (some 1) (some "again") true 10]).1.db.messages ∧
      m'.id = (7 : Nat) ∧ [1] ⊆ m'.readBy :=
  relay_readBy_monotone _ ⟨db₁, conns₀⟩ ⟨7, 1, 1, "hi", [1]⟩ (by decide)

end Relay

namespace Relay

/-- The isTyping flags carried by the typing frames of an event trace, in
emission order. -/
def typingFlagsSent (evs : List Ev) : List Bool :=
  evs.filterMap (fun e => match e with
    | Ev.send _ (Frame.typing _ _ _ t) => some t
    | _ => none)

/-- Helper: a typing operation leaves the whole server state unchanged —
there is no typing state to create or expire. -/
theorem stepRelay_typing_state (s : RState) (cid : ConnId) (c : Option ChatId)
    (t : Bool) : (stepRelay s (Op.typing cid c t)).1 = s := by
  unfold stepRelay
  cases hfc : findConn s cid with
  | none => simp [hfc]
  | some ws => simp [hfc, handleTyping_db]

/-- Helper: the flags of a one-frame typing fanout are `k` copies of the
inbound flag, `k` the number of other open authenticated connections. -/
theorem typingFlagsSent_map (l : List Conn) (c : ChatId) (uid : UserId)
    (un : Option String) (t : Bool) :
    typingFlagsSent (l.map (fun cl => Ev.send cl.connId (Frame.typing c uid un t))) =
      List.replicate l.length t := by
  induction l with
  | nil => rfl
  | cons a l ih => simp [typingFlagsSent, List.replicate] at ih ⊢; exact ih

/-- Helper: the events of one typing step from an authenticated socket. -/
theorem stepRelay_typing_events (s : RState) (cid : ConnId) (c : ChatId)
    (ws : Conn) (uid : UserId) (t : Bool)
    (hfc : findConn s cid = some ws) (hu : ws.userId = some uid) :
    (stepRelay s (Op.typing cid (some c) t)).2 =
      (s.conns.filter (fun cl =>
          cl.isOpen && cl.userId.isSome && cl.userId != some uid)).map
        (fun cl => Ev.send cl.connId (Frame.typing c uid ws.username t)) := by
  unfold stepRelay handleTyping
  simp [hfc, hu]

/-- C6 counterexample: chat 1 has members 1 and 2, both online; two
consecutive typing-start frames from user 1's socket produce two
typing-start broadcasts (both to user 2's socket), not exactly one. -/
theorem relay_typing_two_starts_two_broadcasts :
    typingFlagsSent (runRelay ⟨db₀, conns₀⟩
        [Op.typing 1 (some 1) true, Op.typing 1 (some 1) true]).2 =
      [true, true] := by decide

/-- C6 amended: the relay keeps no typing state: a sequence of typing frames
leaves the server state unchanged, and the emitted flags are exactly `k`
copies of each inbound flag in order (`k` = number of other open
authenticated connections) — each repeated start re-broadcasts, and a stop
is broadcast only when an explicit stop frame arrives (no timer expiry). -/
theorem relay_typing_no_debounce_no_autostop (s : RState) (cid : ConnId)
    (c : ChatId) (ws : Conn) (uid : UserId) (flags : List Bool)
    (hfc : findConn s cid = some ws) (hu : ws.userId = some uid) :
    (runRelay s (flags.map (fun t => Op.typing cid (some c) t))).1 = s ∧
    typingFlagsSent (runRelay s (flags.map (fun t => Op.typing cid (some c) t))).2 =
      List.flatten (flags.map (fun t => List.replicate
        ((s.conns.filter (fun cl =>
            cl.isOpen && cl.userId.isSome && cl.userId != some uid)).length) t)) := by
  induction flags with
  | nil => exact ⟨rfl, rfl⟩
  | cons t ts ih =>
    have hstate := stepRelay_typing_state s cid (some c) t
    constructor
    · simp only [List.map, runRelay, hstate]
      exact ih.1
    · simp only [List.map, runRelay, hstate, List.flatten]
      have hev := stepRelay_typing_events s cid c ws uid t hfc hu
      simp only [typingFlagsSent, List.filterMap_append] at ih ⊢
      rw [hev]
      have := typingFlagsSent_map
        (s.conns.filter (fun cl =>
          cl.isOpen && cl.userId.isSome && cl.userId != some uid)) c uid ws.username t
      simp only [typingFlagsSent] at this
      rw [this, ih.2]

/-- C6 witness: two inbound starts on the concrete two-member state emit the
flag list [true, true] and leave the state unchanged. -/
theorem relay_typing_no_debounce_no_autostop_witness :
    (runRelay ⟨db₀, conns₀⟩
        [Op.typing 1 (some 1) true, Op.typing 1 (some 1) true]).1 = ⟨db₀, conns₀⟩ ∧
    typingFlagsSent (runRelay ⟨db₀, conns₀⟩
        [Op.typing 1 (some 1) true, Op.typing 1 (some 1) true]).2 =
      List.flatten ([true, true].map (fun t => List.replicate
        ((conns₀.filter (fun cl =>
            cl.isOpen && cl.userId.isSome && cl.userId != some 1)).length) t)) :=
  relay_typing_no_debounce_no_autostop ⟨db₀, conns₀⟩ 1 1
    ⟨1, some 1, some "alice", true⟩ 1 [true, true] (by decide) rfl

/-- C7 counterexample input: user 3 exists, is online, but is not a member
of chat 1. -/
def dbC7 : DB := { db₀ with users := db₀.users ++ [⟨3, "carol", "online"⟩] }

def connsC7 : List Conn :=
  [⟨1, some 1, some "alice", true⟩, ⟨3, some 3, some "carol", true⟩]

/-- C7 counterexample: the typing broadcast of member 1 of chat 1 is
delivered to user 3's connection although user 3 is not a member of chat 1. -/
theorem relay_typing_leaks_to_non_members :
    findMember dbC7 1 3 = none ∧
    Ev.send 3 (Frame.typing 1 1 (some "alice") true) ∈
      (handleTyping dbC7 connsC7 ⟨1, some 1, some "alice", true⟩ (some 1) true).2 := by
  decide

/-- C7 amended: a typing frame is broadcast to exactly the open
authenticated connections whose user differs from the typist — chat
membership is not consulted at all. -/
theorem relay_typing_recipients (db : DB) (conns : List Conn) (ws : Conn)
    (c : ChatId) (t : Bool) (uid : UserId) (hu : ws.userId = some uid) (e : Ev) :
    e ∈ (handleTyping db conns ws (some c) t).2 ↔
      ∃ cl, cl ∈ conns ∧ cl.isOpen = true ∧ cl.userId.isSome = true ∧
        cl.userId ≠ some uid ∧
        e = Ev.send cl.connId (Frame.typing c uid ws.username t) := by
  unfold handleTyping
  simp only [hu]
  simp only [List.mem_map, List.mem_filter, Bool.and_eq_true, bne_iff_ne, ne_eq]
  constructor
  · rintro ⟨cl, ⟨hmem, ⟨ho, hs⟩, hne⟩, rfl⟩
    exact ⟨cl, hmem, ho, hs, hne, rfl⟩
  · rintro ⟨cl, hmem, ho, hs, hne, rfl⟩
    exact ⟨cl, ⟨hmem, ⟨ho, hs⟩, hne⟩, rfl⟩

/-- C7 witness: on the concrete non-member state, the delivery to connection
3 is explained exactly by connection 3 being open, authenticated and not the
typist. -/
theorem relay_typing_recipients_witness :
    Ev.send 3 (Frame.typing 1 1 (some "alice") true) ∈
      (handleTyping dbC7 connsC7 ⟨1, some 1, some "alice", true⟩ (some 1) true).2 ↔
      ∃ cl, cl ∈ connsC7 ∧ cl.isOpen = true ∧ cl.userId.isSome = true ∧
        cl.userId ≠ some 1 ∧
        Ev.send 3 (Frame.typing 1 1 (some "alice") true) =
          Ev.send cl.connId (Frame.typing 1 1 (some "alice") true) :=
  relay_typing_recipients dbC7 connsC7 ⟨1, some 1, some "alice", true⟩ 1 true 1 rfl _

/-- C5 counterexample input: the only message of chat 1 is already read by
user 2, so user 2's mark-read delta is empty. -/
def dbC5 : DB := { db₀ with messages := [⟨7, 1, 1, "hi", [1, 2]⟩], nextMsgId := 8 }

/-- C5 counterexample: with an empty delta, the claim demands no broadcast —
but the handler still emits a read_receipt (carrying no message ids) to
user 1's connection. -/
theorem relay_mark_read_empty_delta_still_broadcasts :
    readDelta dbC5 1 2 = [] ∧
    (handleRead dbC5 conns₀ ⟨2, some 2, some "bob", true⟩ (some 1) 9).2 =
      [Ev.send 1 (Frame.readReceipt 1 2)] := by decide

/-- C5 amended: on mark_read by a chat member, the member's unread counter
is reset to zero, and — whether or not the delta is empty — one
read_receipt event carrying only the chat id and reader id (no message ids)
is emitted per other open authenticated connection, with no per-sender
grouping and no membership filter. -/
theorem relay_mark_read_receipt_shape (db : DB) (conns : List Conn) (ws : Conn)
    (c : ChatId) (uid : UserId) (cm : ChatMemberDoc) (now : Nat)
    (hu : ws.userId = some uid) (hm : findMember db c uid = some cm) :
    (∀ mem, mem ∈ (handleRead db conns ws (some c) now).1.members →
        mem.id = cm.id → mem.unreadCount = 0) ∧
    (∀ e, e ∈ (handleRead db conns ws (some c) now).2 ↔
      ∃ cl, cl ∈ conns ∧ cl.isOpen = true ∧ cl.userId.isSome = true ∧
        cl.userId ≠ some uid ∧ e = Ev.send cl.connId (Frame.readReceipt c uid)) ∧
    (handleRead db conns ws (some c) now).2.length =
      (conns.filter (fun cl =>
        cl.isOpen && cl.userId.isSome && cl.userId != some uid)).length := by
  unfold handleRead
  simp only [hu, hm]
  refine ⟨?_, ?_, by simp⟩
  · intro mem hmem hid
    rcases List.mem_map.mp hmem with ⟨x, hx, hfx⟩
    by_cases hxe : (x.id == cm.id) = true
    · rw [if_pos hxe] at hfx
      simp [← hfx]
    · rw [if_neg hxe] at hfx
      rw [← hfx] at hid
      exact absurd (by simp [hid]) hxe
  · intro e
    simp only [List.mem_map, List.mem_filter, Bool.and_eq_true, bne_iff_ne, ne_eq]
    constructor
    · rintro ⟨cl, ⟨hmem, ⟨ho, hs⟩, hne⟩, rfl⟩
      exact ⟨cl, hmem, ho, hs, hne, rfl⟩
    · rintro ⟨cl, hmem, ho, hs, hne, rfl⟩
      exact ⟨cl, ⟨hmem, ⟨ho, hs⟩, hne⟩, rfl⟩

/-- C5 witness: on the empty-delta state, member row 2 is reset to zero
unread, the receipt event to connection 1 is characterized, and one receipt
per other open connection is emitted. -/
theorem relay_mark_read_receipt_shape_witness :
    (ChatMemberDoc.unreadCount ⟨2, 1, 2, 0, some 9⟩ = 0) ∧
    (Ev.send 1 (Frame.readReceipt 1 2) ∈
        (handleRead dbC5 conns₀ ⟨2, some 2, some "bob", true⟩ (some 1) 9).2 ↔
      ∃ cl, cl ∈ conns₀ ∧ cl.isOpen = true ∧ cl.userId.isSome = true ∧
        cl.userId ≠ some 2 ∧
        Ev.send 1 (Frame.readReceipt 1 2) = Ev.send cl.connId (Frame.readReceipt 1 2)) ∧
    (handleRead dbC5 conns₀ ⟨2, some 2, some "bob", true⟩ (some 1) 9).2.length =
      (conns₀.filter (fun cl =>
        cl.isOpen && cl.userId.isSome && cl.userId != some 2)).length :=
  ⟨(relay_mark_read_receipt_shape dbC5 conns₀ ⟨2, some 2, some "bob", true⟩ 1 2
      ⟨2, 1, 2, 0, none⟩ 9 rfl (by decide)).1 ⟨2, 1, 2, 0, some 9⟩ (by decide) rfl,
   (relay_mark_read_receipt_shape dbC5 conns₀ ⟨2, some 2, some "bob", true⟩ 1 2
      ⟨2, 1, 2, 0, none⟩ 9 rfl (by decide)).2.1 (Ev.send 1 (Frame.readReceipt 1 2)),
   (relay_mark_read_receipt_shape dbC5 conns₀ ⟨2, some 2, some "bob", true⟩ 1 2
      ⟨2, 1, 2, 0, none⟩ 9 rfl (by decide)).2.2⟩

end Relay

/-!
The second `ws` relay: `src/server/socket.ts` with the in-memory `MemStorage`
of `src/server/storage.ts`.  Its `clients` map is keyed by user id (one
socket per user), its `message` handler has no membership check, its
`mark_read` notifies the distinct senders of all chat messages, and its
close handler broadcasts offline once per closing socket.  Inbound frames
are modelled with their payload fields present (the handlers read them
unguarded).
-/

namespace WsRelay

abbrev UserId := Nat
abbrev ChatId := Nat
abbrev ConnId := Nat

/-- A `MemStorage` user row (fields the relay touches). -/
structure SUser where
  id : UserId
  username : String
  status : String
  deriving Repr, DecidableEq

/-- A `MemStorage` chat row (fields the relay touches). -/
structure SChat where
  id : ChatId
  lastMessage : Option String
  lastMessageTime : Option Nat
  deriving Repr, DecidableEq

/-- A `MemStorage` chat-member row. -/
structure SChatMember where
  id : Nat
  chatId : ChatId
  userId : UserId
  deriving Repr, DecidableEq

/-- A `MemStorage` message row. -/
structure SMsg where
  id : Nat
  chatId : ChatId
  senderId : UserId
  content : String
  senderName : String
  timestamp : Nat
  status : String
  deriving Repr, DecidableEq

/-- The `MemStorage` instance. -/
structure Store where
  users : List SUser
  chats : List SChat
  chatMembers : List SChatMember
  messages : List SMsg
  nextMessageId : Nat
  deriving Repr, DecidableEq

/-- `storage.getUser`. -/
def getUser (st : Store) (u : UserId) : Option SUser :=
  st.users.find? (fun d => d.id == u)

/-- `storage.updateUserStatus`. -/
def updateUserStatus (st : Store) (u : UserId) (status : String) : Store :=
  { st with users := st.users.map (fun d =>
      if d.id == u then { d with status := status } else d) }

/-- `storage.getChatsForUser`. -/
def getChatsForUser (st : Store) (u : UserId) : List SChat :=
  let memberChatIds := (st.chatMembers.filter (fun m => m.userId == u)).map (·.chatId)
  st.chats.filter (fun c => memberChatIds.contains c.id)

/-- `storage.isUserInChat`. -/
def isUserInChat (st : Store) (c : ChatId) (u : UserId) : Bool :=
  st.chatMembers.any (fun m => m.chatId == c && m.userId == u)

/-- `storage.getChatMembers`. -/
def getChatMembers (st : Store) (c : ChatId) : List SChatMember :=
  st.chatMembers.filter (fun m => m.chatId == c)

/-- `storage.updateChatLastMessage`. -/
def updateChatLastMessage (st : Store) (c : ChatId) (content : String)
    (ts : Nat) : Store :=
  { st with chats := st.chats.map (fun ch =>
      if ch.id == c then { ch with lastMessage := some content, lastMessageTime := some ts }
      else ch) }

/-- Stable ascending insertion by timestamp (the `sort` comparator of
`storage.getMessagesForChat`). -/
def insertByTime (m : SMsg) : List SMsg → List SMsg
  | [] => [m]
  | x :: xs =>
    if m.timestamp < x.timestamp then m :: x :: xs else x :: insertByTime m xs

/-- `storage.getMessagesForChat`: the chat's messages sorted by timestamp. -/
def getMessagesForChat (st : Store) (c : ChatId) : List SMsg :=
  (st.messages.filter (fun m => m.chatId == c)).foldr insertByTime []

/-- `storage.createMessage` as called by the socket handler (status "sent",
timestamp `now`). -/
def createMessage (st : Store) (c : ChatId) (sender : UserId)
    (content : String) (senderName : String) (now : Nat) : Store × SMsg :=
  let m : SMsg := { id := st.nextMessageId, chatId := c, senderId := sender,
                    content := content, senderName := senderName,
                    timestamp := now, status := "sent" }
  ({ st with messages := st.messages ++ [m], nextMessageId := st.nextMessageId + 1 }, m)

/-- `storage.markMessagesAsRead`: flips `status` to "read" on every message
of the chat not sent by the reader (note: no `readBy` set here). -/
def markMessagesAsRead (st : Store) (c : ChatId) (u : UserId) : Store :=
  { st with messages := st.messages.map (fun m =>
      if m.chatId == c && m.senderId != u then { m with status := "read" } else m) }

/-- Outbound frames of the socket.ts relay. -/
inductive WFrame
  | chatsList (chats : List SChat)
  | message (m : SMsg)
  | chatUpdated (chatId : ChatId) (lastMessage : String) (lastMessageTime : Nat)
  | typing (chatId : ChatId) (userId : UserId) (username : String) (isTyping : Bool)
  | messageHistory (chatId : ChatId) (msgs : List SMsg)
  | messagesRead (chatId : ChatId) (byUserId : UserId)
  | userStatus (userId : UserId) (status : String)
  | errorF (msg : String)
  deriving Repr, DecidableEq

/-- An observable delivery: `client.send(frame)` to a connection. -/
inductive WEv
  | send (dst : ConnId) (f : WFrame)
  deriving Repr, DecidableEq

/-- One `UserWebSocket` of the socket.ts relay. -/
structure WConn where
  connId : ConnId
  userId : Option UserId
  username : Option String
  isOpen : Bool
  deriving Repr, DecidableEq

/-- Server state: storage, the user-keyed `clients` map (value = the
registered socket), and all sockets. -/
structure WState where
  store : Store
  clients : List (UserId × ConnId)
  conns : List WConn
  deriving Repr, DecidableEq

/-- `clients.get(u)`. -/
def clientsGet (cls : List (UserId × ConnId)) (u : UserId) : Option ConnId :=
  (cls.find? (fun p => p.1 == u)).map (·.2)

/-- `clients.set(u, ws)`: replace in place, or append a new entry. -/
def clientsSet (cls : List (UserId × ConnId)) (u : UserId) (cid : ConnId) :
    List (UserId × ConnId) :=
  if cls.any (fun p => p.1 == u) then
    cls.map (fun p => if p.1 == u then (u, cid) else p)
  else cls ++ [(u, cid)]

/-- `clients.delete(u)`. -/
def clientsDelete (cls : List (UserId × ConnId)) (u : UserId) :
    List (UserId × ConnId) :=
  cls.filter (fun p => p.1 != u)

def findWConn (s : WState) (cid : ConnId) : Option WConn :=
  s.conns.find? (fun cl => cl.connId == cid)

/-- `client && client.readyState === WebSocket.OPEN` for the registered
socket of user `u`. -/
def openClientOf (s : WState) (u : UserId) : Option ConnId :=
  match clientsGet s.clients u with
  | none => none
  | some cid =>
    match findWConn s cid with
    | some cl => if cl.isOpen then some cid else none
    | none => none

/-- The `broadcastUserStatus` helper (src/server/socket.ts lines 202-223):
nested loop over the user's chats and their members, one send per (chat,
member) pair whose registered client is open — no deduplication. -/
def broadcastUserStatus (s : WState) (u : UserId) (status : String) : List WEv :=
  List.flatten ((getChatsForUser s.store u).map (fun chat =>
    (getChatMembers s.store chat.id).filterMap (fun mem =>
      if mem.userId != u then
        match openClientOf s mem.userId with
        | some cid => some (WEv.send cid (WFrame.userStatus u status))
        | none => none
      else none)))

/-- The `case 'auth'` handler (src/server/socket.ts lines 45-66):
`ws.userId` is set before the lookup; an unknown user id leaves everything
else untouched — no error frame, no close. -/
def wsHandleAuth (s : WState) (ws : WConn) (uid : UserId) : WState × List WEv :=
  let conns1 := s.conns.map (fun cl =>
    if cl.connId == ws.connId then { cl with userId := some uid } else cl)
  match getUser s.store uid with
  | none => ({ s with conns := conns1 }, [])
  | some user =>
    let conns2 := conns1.map (fun cl =>
      if cl.connId == ws.connId then { cl with username := some user.username } else cl)
    let clients1 := clientsSet s.clients uid ws.connId
    let store1 := updateUserStatus s.store uid "online"
    let s1 : WState := { store := store1, clients := clients1, conns := conns2 }
    (s1, WEv.send ws.connId (WFrame.chatsList (getChatsForUser store1 uid)) ::
         broadcastUserStatus s1 uid "online")

/-- The `case 'message'` handler (src/server/socket.ts lines 68-121): no
membership check; persisted then fanned out to every member's registered
open socket, with a `chat_updated` frame for members other than the sender. -/
def wsHandleMessage (s : WState) (ws : WConn) (c : ChatId) (content : String)
    (now : Nat) : WState × List WEv :=
  match ws.userId with
  | none => (s, [])
  | some uid =>
    let r := createMessage s.store c uid content (ws.username.getD "") now
    let store2 := updateChatLastMessage r.1 c content r.2.timestamp
    let s1 : WState := { s with store := store2 }
    let sends := List.flatten ((getChatMembers store2 c).map (fun mem =>
      match openClientOf s1 mem.userId with
      | some cid =>
        WEv.send cid (WFrame.message r.2) ::
          (if mem.userId != uid then
            [WEv.send cid (WFrame.chatUpdated c content r.2.timestamp)]
          else [])
      | none => []))
    (s1, sends)

/-- The `case 'typing'` handler (src/server/socket.ts lines 123-142):
membership-filtered (unlike part_010), sent to each other member's
registered open socket. -/
def wsHandleTyping (s : WState) (ws : WConn) (c : ChatId) (t : Bool) :
    WState × List WEv :=
  match ws.userId with
  | none => (s, [])
  | some uid =>
    match ws.username with
    | none => (s, [])
    | some un =>
      (s, ((getChatMembers s.store c).filter (fun mem => mem.userId != uid)).filterMap
        (fun mem =>
          match openClientOf s mem.userId with
          | some cid => some (WEv.send cid (WFrame.typing c uid un t))
          | none => none))

/-- The `case 'get_messages'` handler (src/server/socket.ts lines 144-157). -/
def wsHandleGetMessages (s : WState) (ws : WConn) (c : ChatId) :
    WState × List WEv :=
  match ws.userId with
  | none => (s, [])
  | some uid =>
    if isUserInChat s.store c uid then
      (s, [WEv.send ws.connId (WFrame.messageHistory c (getMessagesForChat s.store c))])
    else (s, [])

/-- `Array.from(new Set(xs))` for user ids. -/
def jsSetListW (xs : List UserId) : List UserId :=
  xs.foldl (fun acc x => if acc.contains x then acc else acc ++ [x]) []

/-- The `case 'mark_read'` handler (src/server/socket.ts lines 159-181):
notifies the distinct senders of all of the chat's messages (not a delta),
with no message ids in the frame. -/
def wsHandleMarkRead (s : WState) (ws : WConn) (c : ChatId) :
    WState × List WEv :=
  match ws.userId with
  | none => (s, [])
  | some uid =>
    let store1 := markMessagesAsRead s.store c uid
    let s1 : WState := { s with store := store1 }
    let senderIds := jsSetListW
      (((getMessagesForChat store1 c).filter (fun m => m.senderId != uid)).map (·.senderId))
    let sends := senderIds.filterMap (fun sid =>
      match openClientOf s1 sid with
      | some cid => some (WEv.send cid (WFrame.messagesRead c uid))
      | none => none)
    (s1, sends)

/-- The `close` handler (src/server/socket.ts lines 188-199): per closing
socket — status offline, `clients.delete`, one offline broadcast. -/
def wsHandleClose (s : WState) (ws : WConn) : WState × List WEv :=
  let conns1 := s.conns.map (fun cl =>
    if cl.connId == ws.connId then { cl with isOpen := false } else cl)
  match ws.userId with
  | none => ({ s with conns := conns1 }, [])
  | some uid =>
    let store1 := updateUserStatus s.store uid "offline"
    let clients1 := clientsDelete s.clients uid
    let s1 : WState := { store := store1, clients := clients1, conns := conns1 }
    (s1, broadcastUserStatus s1 uid "offline")

/-- Inbound operations of the socket.ts relay. -/
inductive WOp
  | connect (cid : ConnId)
  | auth (cid : ConnId) (userId : UserId)
  | message (cid : ConnId) (chatId : ChatId) (content : String) (now : Nat)
  | typing (cid : ConnId) (chatId : ChatId) (isTyping : Bool)
  | getMessages (cid : ConnId) (chatId : ChatId)
  | markRead (cid : ConnId) (chatId : ChatId)
  | close (cid : ConnId)
  deriving Repr, DecidableEq

/-- One inbound operation. -/
def stepWs (s : WState) : WOp → WState × List WEv
  | WOp.connect cid =>
      ({ s with conns := s.conns ++ [⟨cid, none, none, true⟩] }, [])
  | WOp.auth cid uid =>
      match findWConn s cid with
      | none => (s, [])
      | some ws => wsHandleAuth s ws uid
  | WOp.message cid c content now =>
      match findWConn s cid with
      | none => (s, [])
      | some ws => wsHandleMessage s ws c content now
  | WOp.typing cid c t =>
      match findWConn s cid with
      | none => (s, [])
      | some ws => wsHandleTyping s ws c t
  | WOp.getMessages cid c =>
      match findWConn s cid with
      | none => (s, [])
      | some ws => wsHandleGetMessages s ws c
  | WOp.markRead cid c =>
      match findWConn s cid with
      | none => (s, [])
      | some ws => wsHandleMarkRead s ws c
  | WOp.close cid =>
      match findWConn s cid with
      | none => (s, [])
      | some ws => wsHandleClose s ws

/-- A sequence of operations with the concatenated event trace. -/
def runWs : WState → List WOp → WState × List WEv
  | s, [] => (s, [])
  | s, op :: ops =>
    let r1 := stepWs s op
    let r2 := runWs r1.1 ops
    (r2.1, r1.2 ++ r2.2)

/-- A freshly started server: empty clients map, no sockets yet. -/
def initWState (st : Store) : WState := ⟨st, [], []⟩

end WsRelay

namespace WsRelay

/-- C10: a message, typing, get_messages or mark_read frame on a connection
that has never completed an auth frame is silently ignored: the state
(store, clients map, sockets) is unchanged — so nothing is persisted and the
connection stays open — and no frame (in particular no error) is sent. -/
theorem ws_unauthenticated_frames_ignored (s : WState) (cid : ConnId) (ws : WConn)
    (c₁ c₂ c₃ c₄ : ChatId) (body : String) (now : Nat) (t : Bool)
    (hfc : findWConn s cid = some ws) (hu : ws.userId = none) :
    stepWs s (WOp.message cid c₁ body now) = (s, []) ∧
    stepWs s (WOp.typing cid c₂ t) = (s, []) ∧
    stepWs s (WOp.getMessages cid c₃) = (s, []) ∧
    stepWs s (WOp.markRead cid c₄) = (s, []) := by
  refine ⟨?_, ?_, ?_, ?_⟩ <;>
    · unfold stepWs wsHandleMessage wsHandleTyping wsHandleGetMessages wsHandleMarkRead
      simp [hfc, hu]

/-- C8 counterexample input: user 1 exists; socket 1 is connected but not
yet authenticated. -/
def store₈ : Store :=
  { users := [⟨1, "alice", "online"⟩], chats := [], chatMembers := [],
    messages := [], nextMessageId := 1 }

def s₈ : WState := ⟨store₈, [], [⟨1, none, none, true⟩]⟩

/-- C10 witness: on the concrete fresh connection, all four frame kinds are
ignored without any effect. -/
theorem ws_unauthenticated_frames_ignored_witness :
    stepWs s₈ (WOp.message 1 1 "hi" 5) = (s₈, []) ∧
    stepWs s₈ (WOp.typing 1 1 true) = (s₈, []) ∧
    stepWs s₈ (WOp.getMessages 1 1) = (s₈, []) ∧
    stepWs s₈ (WOp.markRead 1 1) = (s₈, []) :=
  ws_unauthenticated_frames_ignored s₈ 1 ⟨1, none, none, true⟩ 1 1 1 1 "hi" 5 true
    (by decide) rfl

/-- C8 counterexample: an auth frame naming unknown user 99 is not rejected:
no error frame is sent, the connection is not closed, no timeout exists, and
`ws.userId` is even left set to 99. -/
theorem ws_bad_credential_not_rejected :
    getUser store₈ 99 = none ∧
    stepWs s₈ (WOp.auth 1 99) =
      (⟨store₈, [], [⟨1, some 99, none, true⟩]⟩, []) := by decide

/-- C8 amended: an auth frame always sets `ws.userId`; when the user id is
unknown to storage nothing else happens — the store and clients map are
untouched, no frame is sent, and every socket keeps its id and open state
(the connection is not closed).  There is no handshake timeout at all: an
unauthenticated connection simply stays open. -/
theorem ws_auth_unknown_user_silent (s : WState) (cid : ConnId) (ws : WConn)
    (uid : UserId)
    (hfc : findWConn s cid = some ws) (hgu : getUser s.store uid = none) :
    (stepWs s (WOp.auth cid uid)).1.store = s.store ∧
    (stepWs s (WOp.auth cid uid)).1.clients = s.clients ∧
    (stepWs s (WOp.auth cid uid)).2 = [] ∧
    (stepWs s (WOp.auth cid uid)).1.conns =
      s.conns.map (fun cl =>
        if cl.connId == ws.connId then { cl with userId := some uid } else cl) ∧
    (∀ cl, cl ∈ (stepWs s (WOp.auth cid uid)).1.conns →
      ∃ cl₀, cl₀ ∈ s.conns ∧ cl.connId = cl₀.connId ∧ cl.isOpen = cl₀.isOpen) := by
  unfold stepWs wsHandleAuth
  simp only [hfc, hgu]
  refine ⟨trivial, trivial, trivial, trivial, ?_⟩
  intro cl hcl
  rcases List.mem_map.mp hcl with ⟨cl₀, h₀, rfl⟩
  refine ⟨cl₀, h₀, ?_, ?_⟩ <;> split <;> rfl

/-- C8 witness: the unknown-user auth on the concrete state leaves
everything but `ws.userId` unchanged, and socket 1 stays open. -/
theorem ws_auth_unknown_user_silent_witness :
    (stepWs s₈ (WOp.auth 1 99)).1.store = s₈.store ∧
    (stepWs s₈ (WOp.auth 1 99)).1.clients = s₈.clients ∧
    (stepWs s₈ (WOp.auth 1 99)).2 = [] ∧
    (∃ cl₀, cl₀ ∈ s₈.conns ∧
      WConn.connId ⟨1, some 99, none, true⟩ = cl₀.connId ∧
      WConn.isOpen ⟨1, some 99, none, true⟩ = cl₀.isOpen) :=
  ⟨(ws_auth_unknown_user_silent s₈ 1 ⟨1, none, none, true⟩ 99 (by decide) (by decide)).1,
   (ws_auth_unknown_user_silent s₈ 1 ⟨1, none, none, true⟩ 99 (by decide) (by decide)).2.1,
   (ws_auth_unknown_user_silent s₈ 1 ⟨1, none, none, true⟩ 99 (by decide) (by decide)).2.2.1,
   (ws_auth_unknown_user_silent s₈ 1 ⟨1, none, none, true⟩ 99 (by decide)
      (by decide)).2.2.2.2 ⟨1, some 99, none, true⟩ (by decide)⟩

/-- C3 counterexample input: chat 1 = {user 1, user 2}; user 1 holds two
open sockets (1 and 2, the clients map pointing at the later one), user 2
holds socket 3. -/
def store₃ : Store :=
  { users := [⟨1, "alice", "online"⟩, ⟨2, "bob", "online"⟩],
    chats := [⟨1, none, none⟩],
    chatMembers := [⟨1, 1, 1⟩, ⟨2, 1, 2⟩],
    messages := [], nextMessageId := 1 }

def s₃ : WState :=
  ⟨store₃,
   [(1, 2), (2, 3)],
   [⟨1, some 1, some "alice", true⟩, ⟨2, some 1, some "alice", true⟩,
    ⟨3, some 2, some "bob", true⟩]⟩

/-- C3 counterexample: closing user 1's first socket already emits an
offline broadcast to user 2 although user 1 still has an open connection,
and closing both sockets emits two offline broadcasts, not one. -/
theorem ws_close_two_conns_two_offline_broadcasts :
    (stepWs s₃ (WOp.close 1)).2 = [WEv.send 3 (WFrame.userStatus 1 "offline")] ∧
    ((stepWs s₃ (WOp.close 1)).1.conns.any
        (fun cl => cl.userId == some 1 && cl.isOpen)) = true ∧
    (runWs s₃ [WOp.close 1, WOp.close 2]).2 =
      [WEv.send 3 (WFrame.userStatus 1 "offline"),
       WEv.send 3 (WFrame.userStatus 1 "offline")] := by decide

end WsRelay

namespace WsRelay

/-- Helper: `clients.set` keeps the key list duplicate-free. -/
theorem clientsSet_keys_nodup (cls : List (UserId × ConnId)) (u : UserId)
    (cid : ConnId) (h : (cls.map Prod.fst).Nodup) :
    ((clientsSet cls u cid).map Prod.fst).Nodup := by
  unfold clientsSet
  split
  · have : (cls.map (fun p => if p.1 == u then (u, cid) else p)).map Prod.fst =
        cls.map Prod.fst := by
      rw [List.map_map]
      apply List.map_congr_left
      intro p _
      by_cases hb : (p.1 == u) = true
      · have : p.1 = u := by simpa using hb
        simp [Function.comp, hb, this]
      · simp [Function.comp, hb]
    rw [this]; exact h
  · rename_i hany
    have hnotin : u ∉ cls.map Prod.fst := by
      intro hmem
      rcases List.mem_map.mp hmem with ⟨p, hp, hpu⟩
      exact hany (List.any_eq_true.mpr ⟨p, hp, by simp [hpu]⟩)
    have hkeys : ((cls ++ [(u, cid)]).map Prod.fst) = cls.map Prod.fst ++ [u] := by
      simp
    rw [hkeys]
    refine List.Nodup.append h (List.nodup_singleton u) ?_
    intro a ha hb
    exact hnotin ((List.mem_singleton.mp hb) ▸ ha)

/-- Helper: `clients.delete` keeps the key list duplicate-free. -/
theorem clientsDelete_keys_nodup (cls : List (UserId × ConnId)) (u : UserId)
    (h : (cls.map Prod.fst).Nodup) :
    ((clientsDelete cls u).map Prod.fst).Nodup :=
  h.sublist (List.Sublist.map Prod.fst (List.filter_sublist cls))

/-- Helper: the message handler leaves the clients map unchanged. -/
theorem wsHandleMessage_clients (s : WState) (ws : WConn) (c : ChatId)
    (b : String) (now : Nat) :
    (wsHandleMessage s ws c b now).1.clients = s.clients := by
  unfold wsHandleMessage
  cases hu : ws.userId <;> simp [hu]

/-- Helper: the typing handler leaves the clients map unchanged. -/
theorem wsHandleTyping_clients (s : WState) (ws : WConn) (c : ChatId) (t : Bool) :
    (wsHandleTyping s ws c t).1.clients = s.clients := by
  unfold wsHandleTyping
  cases hu : ws.userId with
  | none => simp [hu]
  | some uid => cases hn : ws.username <;> simp [hu, hn]

/-- Helper: the get_messages handler leaves the clients map unchanged. -/
theorem wsHandleGetMessages_clients (s : WState) (ws : WConn) (c : ChatId) :
    (wsHandleGetMessages s ws c).1.clients = s.clients := by
  unfold wsHandleGetMessages
  cases hu : ws.userId with
  | none => simp [hu]
  | some uid =>
    simp only [hu]
    split <;> rfl

/-- Helper: the mark_read handler leaves the clients map unchanged. -/
theorem wsHandleMarkRead_clients (s : WState) (ws : WConn) (c : ChatId) :
    (wsHandleMarkRead s ws c).1.clients = s.clients := by
  unfold wsHandleMarkRead
  cases hu : ws.userId <;> simp [hu]

/-- Helper: every relay operation keeps the clients map's keys
duplicate-free. -/
theorem stepWs_clients_keys_nodup (s : WState) (op : WOp)
    (h : (s.clients.map Prod.fst).Nodup) :
    (((stepWs s op).1.clients.map Prod.fst)).Nodup := by
  cases op with
  | connect cid => simpa [stepWs] using h
  | auth cid uid =>
    cases hfc : findWConn s cid with
    | none => simpa [stepWs, hfc] using h
    | some ws =>
      unfold stepWs wsHandleAuth
      simp only [hfc]
      cases hgu : getUser s.store uid with
      | none => simpa [hgu] using h
      | some user => simpa [hgu] using clientsSet_keys_nodup s.clients uid ws.connId h
  | message cid c b now =>
    cases hfc : findWConn s cid with
    | none => simpa [stepWs, hfc] using h
    | some ws => simpa [stepWs, hfc, wsHandleMessage_clients] using h
  | typing cid c t =>
    cases hfc : findWConn s cid with
    | none => simpa [stepWs, hfc] using h
    | some ws => simpa [stepWs, hfc, wsHandleTyping_clients] using h
  | getMessages cid c =>
    cases hfc : findWConn s cid with
    | none => simpa [stepWs, hfc] using h
    | some ws => simpa [stepWs, hfc, wsHandleGetMessages_clients] using h
  | markRead cid c =>
    cases hfc : findWConn s cid with
    | none => simpa [stepWs, hfc] using h
    | some ws => simpa [stepWs, hfc, wsHandleMarkRead_clients] using h
  | close cid =>
    cases hfc : findWConn s cid with
    | none => simpa [stepWs, hfc] using h
    | some ws =>
      unfold stepWs wsHandleClose
      simp only [hfc]
      cases hu : ws.userId with
      | none => simpa [hu] using h
      | some uid => simpa [hu] using clientsDelete_keys_nodup s.clients uid h

/-- Helper: the invariant holds along any run from a fresh server. -/
theorem runWs_clients_keys_nodup (s : WState) (ops : List WOp)
    (h : (s.clients.map Prod.fst).Nodup) :
    (((runWs s ops).1.clients.map Prod.fst)).Nodup := by
  induction ops generalizing s with
  | nil => exact h
  | cons op ops ih => simpa [runWs] using ih _ (stepWs_clients_keys_nodup s op h)

/-- Helper: duplicate-free keys bound the per-user entry count by one. -/
theorem count_le_one_of_keys_nodup (cls : List (UserId × ConnId)) (u : UserId)
    (h : (cls.map Prod.fst).Nodup) :
    (cls.filter (fun p => p.1 == u)).length ≤ 1 := by
  induction cls with
  | nil => simp
  | cons a l ih =>
    simp only [List.map_cons, List.nodup_cons] at h
    by_cases hb : (a.1 == u) = true
    · have hau : a.1 = u := by simpa using hb
      have hnil : l.filter (fun p => p.1 == u) = [] := by
        rw [List.filter_eq_nil_iff]
        intro p hp hpb
        have hpu : p.1 = u := by simpa using hpb
        exact h.1 (List.mem_map.mpr ⟨p, hp, by rw [hpu]; exact hau.symm⟩)
      simp [List.filter_cons, hb, hnil]
    · simpa [List.filter_cons, hb] using ih h.2

/-- Helper: after `clients.set(u, cid)`, `clients.get(u)` is `cid`
(map-in-place case). -/
theorem clientsGet_map_set (cls : List (UserId × ConnId)) (u : UserId)
    (cid : ConnId) (hany : cls.any (fun p => p.1 == u) = true) :
    clientsGet (cls.map (fun p => if p.1 == u then (u, cid) else p)) u = some cid := by
  induction cls with
  | nil => simp at hany
  | cons a l ih =>
    by_cases hb : (a.1 == u) = true
    · have ha : (if a.1 == u then (u, cid) else a) = (u, cid) := by simp [hb]
      unfold clientsGet
      rw [List.map_cons, ha, List.find?_cons_of_pos _ (by simp)]
      rfl
    · simp only [List.any_cons, hb, Bool.false_or] at hany
      have ha : (if a.1 == u then (u, cid) else a) = a := by simp [hb]
      unfold clientsGet at ih ⊢
      rw [List.map_cons, ha, List.find?_cons_of_neg _ (by simp [hb])]
      exact ih hany

/-- Helper: after `clients.set(u, cid)`, `clients.get(u)` is `cid`
(append case). -/
theorem clientsGet_append_set (cls : List (UserId × ConnId)) (u : UserId)
    (cid : ConnId) (hany : cls.any (fun p => p.1 == u) = false) :
    clientsGet (cls ++ [(u, cid)]) u = some cid := by
  induction cls with
  | nil =>
    unfold clientsGet
    rw [List.nil_append, List.find?_cons_of_pos _ (by simp)]
    rfl
  | cons a l ih =>
    have h1 : (a.1 == u) = false := by
      cases hb : (a.1 == u) with
      | false => rfl
      | true => rw [List.any_cons, hb, Bool.true_or] at hany; exact Bool.noConfusion hany
    have h2 : (l.any fun p => p.1 == u) = false := by
      cases hb : (l.any fun p => p.1 == u) with
      | false => rfl
      | true => rw [List.any_cons, hb, Bool.or_true] at hany; exact Bool.noConfusion hany
    unfold clientsGet at ih ⊢
    rw [List.cons_append, List.find?_cons_of_neg _ (by simp [h1])]
    exact ih h2

/-- Helper: `clients.set` overwrites: the subsequent `get` returns the new
socket. -/
theorem clientsGet_clientsSet (cls : List (UserId × ConnId)) (u : UserId)
    (cid : ConnId) : clientsGet (clientsSet cls u cid) u = some cid := by
  unfold clientsSet
  by_cases hany : (cls.any (fun p => p.1 == u)) = true
  · rw [if_pos hany]; exact clientsGet_map_set cls u cid hany
  · rw [if_neg hany]
    have hfalse : (cls.any fun p => p.1 == u) = false := by
      cases h : (cls.any fun p => p.1 == u) with
      | false => rfl
      | true => exact absurd h hany
    exact clientsGet_append_set cls u cid hfalse

/-- C9: from a fresh server, after any sequence of operations the clients
map holds at most one entry per user id; and a successful auth for `uid` on
socket `cid` overwrites the map so that `clients.get(uid)` is exactly that
most recent socket — every later lookup-based delivery targets at most that
one socket. -/
theorem ws_clients_at_most_one_per_user (st : Store) (ops : List WOp) (u : UserId) :
    ((runWs (initWState st) ops).1.clients.filter (fun p => p.1 == u)).length ≤ 1 ∧
    (∀ (s : WState) (cid : ConnId) (ws : WConn) (uid : UserId) (user : SUser),
      findWConn s cid = some ws → getUser s.store uid = some user →
      clientsGet (stepWs s (WOp.auth cid uid)).1.clients uid = some ws.connId) := by
  constructor
  · exact count_le_one_of_keys_nodup _ u
      (runWs_clients_keys_nodup (initWState st) ops (by simp [initWState]))
  · intro s cid ws uid user hfc hgu
    unfold stepWs wsHandleAuth
    simp only [hfc, hgu]
    exact clientsGet_clientsSet s.clients uid ws.connId

/-- C9 witness: after user 1 re-authenticates on socket 2, the map holds one
entry for user 1 pointing at socket 2. -/
theorem ws_clients_at_most_one_per_user_witness :
    ((runWs (initWState store₈)
        [WOp.connect 1, WOp.auth 1 1, WOp.connect 2, WOp.auth 2 1]).1.clients.filter
      (fun p => p.1 == (1 : Nat))).length ≤ 1 ∧
    clientsGet (stepWs s₈ (WOp.auth 1 1)).1.clients 1 = some 1 :=
  ⟨(ws_clients_at_most_one_per_user store₈
      [WOp.connect 1, WOp.auth 1 1, WOp.connect 2, WOp.auth 2 1] 1).1,
   (ws_clients_at_most_one_per_user store₈ [] 1).2 s₈ 1 ⟨1, none, none, true⟩ 1
     ⟨1, "alice", "online"⟩ (by decide) (by decide)⟩

end WsRelay

namespace WsRelay

/-- Helper: one entry of the offline-broadcast inner loop is a send exactly
when the member differs from the user and has an open registered client. -/
theorem offlineEntry_eq_some_iff (s1 : WState) (uid : UserId) (status : String)
    (mem : SChatMember) (e : WEv) :
    ((if mem.userId != uid then
        match openClientOf s1 mem.userId with
        | some cid => some (WEv.send cid (WFrame.userStatus uid status))
        | none => none
      else none) = some e) ↔
      (mem.userId ≠ uid ∧ ∃ tc, openClientOf s1 mem.userId = some tc ∧
        e = WEv.send tc (WFrame.userStatus uid status)) := by
  by_cases hb : (mem.userId != uid) = true
  · rw [if_pos hb]
    have hne : mem.userId ≠ uid := by simpa using hb
    cases hoc : openClientOf s1 mem.userId with
    | none => simp [hne]
    | some tc =>
      simp only [Option.some.injEq]
      constructor
      · intro h
        exact ⟨hne, tc, rfl, h.symm⟩
      · rintro ⟨-, tc', htc', rfl⟩
        rw [htc']
  · rw [if_neg hb]
    have heq : mem.userId = uid := by simpa using hb
    simp [heq]

/-- C3 amended: every close of a connection carrying a user id sets that
user's status offline, removes the user's clients entry, and emits the
offline broadcast right then — one send per (shared chat, co-member) pair
whose registered client is open — with no hypothesis about the user's other
connections.  Closing N connections of one user therefore produces N such
broadcast rounds, not one. -/
theorem ws_close_offline_broadcast_shape (s : WState) (cid : ConnId) (ws : WConn)
    (uid : UserId) (hfc : findWConn s cid = some ws) (hu : ws.userId = some uid) :
    (stepWs s (WOp.close cid)).1.store = updateUserStatus s.store uid "offline" ∧
    (stepWs s (WOp.close cid)).1.clients = clientsDelete s.clients uid ∧
    (∀ e, e ∈ (stepWs s (WOp.close cid)).2 ↔
      ∃ chat, chat ∈ getChatsForUser s.store uid ∧
      ∃ mem, mem ∈ getChatMembers s.store chat.id ∧ mem.userId ≠ uid ∧
      ∃ tc, openClientOf (stepWs s (WOp.close cid)).1 mem.userId = some tc ∧
        e = WEv.send tc (WFrame.userStatus uid "offline")) := by
  unfold stepWs wsHandleClose
  simp only [hfc, hu]
  refine ⟨trivial, trivial, ?_⟩
  intro e
  unfold broadcastUserStatus
  constructor
  · intro he
    rw [List.mem_flatten] at he
    rcases he with ⟨l, hl, hel⟩
    rcases List.mem_map.mp hl with ⟨chat, hchat, rfl⟩
    rcases List.mem_filterMap.mp hel with ⟨mem, hmem, hsome⟩
    rcases (offlineEntry_eq_some_iff _ uid "offline" mem e).mp hsome with
      ⟨hne, tc, htc, rfl⟩
    exact ⟨chat, hchat, mem, hmem, hne, tc, htc, rfl⟩
  · rintro ⟨chat, hchat, mem, hmem, hne, tc, htc, rfl⟩
    rw [List.mem_flatten]
    refine ⟨_, List.mem_map_of_mem _ hchat, ?_⟩
    exact List.mem_filterMap.mpr
      ⟨mem, hmem, (offlineEntry_eq_some_iff _ uid "offline" mem _).mpr ⟨hne, tc, htc, rfl⟩⟩

/-- C3 witness: closing user 1's first socket on the concrete two-socket
state flips the status, deletes the clients entry, and the offline send to
socket 3 is exactly characterized. -/
theorem ws_close_offline_broadcast_shape_witness :
    (stepWs s₃ (WOp.close 1)).1.store = updateUserStatus s₃.store 1 "offline" ∧
    (stepWs s₃ (WOp.close 1)).1.clients = clientsDelete s₃.clients 1 ∧
    (WEv.send 3 (WFrame.userStatus 1 "offline") ∈ (stepWs s₃ (WOp.close 1)).2 ↔
      ∃ chat, chat ∈ getChatsForUser s₃.store 1 ∧
      ∃ mem, mem ∈ getChatMembers s₃.store chat.id ∧ mem.userId ≠ 1 ∧
      ∃ tc, openClientOf (stepWs s₃ (WOp.close 1)).1 mem.userId = some tc ∧
        WEv.send 3 (WFrame.userStatus 1 "offline") = WEv.send tc (WFrame.userStatus 1 "offline")) :=
  ⟨(ws_close_offline_broadcast_shape s₃ 1 ⟨1, some 1, some "alice", true⟩ 1
      (by decide) rfl).1,
   (ws_close_offline_broadcast_shape s₃ 1 ⟨1, some 1, some "alice", true⟩ 1
      (by decide) rfl).2.1,
   (ws_close_offline_broadcast_shape s₃ 1 ⟨1, some 1, some "alice", true⟩ 1
      (by decide) rfl).2.2 (WEv.send 3 (WFrame.userStatus 1 "offline"))⟩

end WsRelay
